import Mathlib

/-!
Verification of the RBAC and analytics core of the Project-Management
backend (backend/utils/permissions.py, backend/utils/analytics.py,
backend/routes/tasks.py, backend/routes/roles.py).

The remote record store (SupabaseDB) is embedded as an in-memory `Store`
of three typed tables; the five store primitives used by the engine
(select_by_id, select_where, select_with_filters, insert, update, delete)
become list operations.  Python exceptions become an `ApiError` sum type
returned through `Except`; a `.error` result models a raise that performs
no store write.  Exception payload messages are kept only where a theorem
needs to distinguish two raise sites of the same exception class.
Python float arithmetic in progress computation is embedded as exact
rational arithmetic (`ℚ`) with `int(.)` as floor, and ISO-8601 timestamp
parsing is a parameter `parse : String → Option Int` producing calendar
day numbers.
-/

namespace PMApp

/-- Available permissions in the system (Permission enum of permissions.py). -/
inductive Permission where
  | CREATE_PROJECT
  | EDIT_PROJECT
  | DELETE_PROJECT
  | VIEW_PROJECT
  | CREATE_TASK
  | EDIT_TASK
  | DELETE_TASK
  | VIEW_TASK
  | ASSIGN_TASK
  | UPDATE_TASK_STATUS
  | MANAGE_TEAM
  | ADD_MEMBER
  | REMOVE_MEMBER
  | UPDATE_ROLE
  | VIEW_ANALYTICS
deriving DecidableEq, Repr, Fintype

/-- Project roles (Role enum of permissions.py). -/
inductive Role where
  | OWNER
  | MANAGER
  | DEVELOPER
  | VIEWER
deriving DecidableEq, Repr, Fintype

/-- The string value of each Role member (Role is a str Enum in the source). -/
def roleValue : Role → String
  | .OWNER => "owner"
  | .MANAGER => "manager"
  | .DEVELOPER => "developer"
  | .VIEWER => "viewer"

/-- ROLE_PERMISSIONS mapping of permissions.py, lines 45-94, in source order. -/
def ROLE_PERMISSIONS : Role → List Permission
  | .OWNER =>
    [.CREATE_PROJECT, .EDIT_PROJECT, .DELETE_PROJECT, .VIEW_PROJECT,
     .CREATE_TASK, .EDIT_TASK, .DELETE_TASK, .VIEW_TASK, .ASSIGN_TASK,
     .UPDATE_TASK_STATUS, .MANAGE_TEAM, .ADD_MEMBER, .REMOVE_MEMBER,
     .UPDATE_ROLE, .VIEW_ANALYTICS]
  | .MANAGER =>
    [.EDIT_PROJECT, .VIEW_PROJECT,
     .CREATE_TASK, .EDIT_TASK, .DELETE_TASK, .VIEW_TASK, .ASSIGN_TASK,
     .UPDATE_TASK_STATUS,
     .ADD_MEMBER,
     .VIEW_ANALYTICS]
  | .DEVELOPER =>
    [.VIEW_PROJECT,
     .CREATE_TASK, .VIEW_TASK, .UPDATE_TASK_STATUS]
  | .VIEWER =>
    [.VIEW_PROJECT, .VIEW_TASK]

/-- Python str.lower, embedded character by character (role strings are
ASCII) so that the kernel can evaluate it on concrete inputs. -/
def lowerString (s : String) : String :=
  String.mk (s.data.map Char.toLower)

/-- The Python constructor call Role(s.lower()): parse a role string,
case-insensitively, to a Role member; ValueError becomes none. -/
def roleOfString (s : String) : Option Role :=
  let t := lowerString s
  if t = "owner" then some Role.OWNER
  else if t = "manager" then some Role.MANAGER
  else if t = "developer" then some Role.DEVELOPER
  else if t = "viewer" then some Role.VIEWER
  else none

/-- check_permission of permissions.py, lines 127-146.  The Python
parameter user_role may be None or any string; `if not user_role` is
falsity of the optional string (None or empty). -/
def check_permission (user_role : Option String) (required_permission : Permission) : Bool :=
  match user_role with
  | none => false
  | some s =>
    if s = "" then false
    else
      match roleOfString s with
      | some role_enum => (ROLE_PERMISSIONS role_enum).contains required_permission
      | none => false

/-- The role → permission table of spec section 4.1, transcribed cell by
cell from the spec words (refinement reference for C1, not from the code). -/
def spec_table : Role → Permission → Bool
  | .OWNER, _ => true
  | .MANAGER, p =>
    match p with
    | .EDIT_PROJECT => true
    | .VIEW_PROJECT => true
    | .CREATE_TASK => true
    | .EDIT_TASK => true
    | .DELETE_TASK => true
    | .VIEW_TASK => true
    | .ASSIGN_TASK => true
    | .UPDATE_TASK_STATUS => true
    | .ADD_MEMBER => true
    | .VIEW_ANALYTICS => true
    | _ => false
  | .DEVELOPER, p =>
    match p with
    | .VIEW_PROJECT => true
    | .CREATE_TASK => true
    | .VIEW_TASK => true
    | .UPDATE_TASK_STATUS => true
    | _ => false
  | .VIEWER, p =>
    match p with
    | .VIEW_PROJECT => true
    | .VIEW_TASK => true
    | _ => false

/-- A row of the projects table (fields the engine reads). -/
structure Project where
  id : String
  name : String
  owner_id : String
  status : String
  progress : Nat
deriving DecidableEq, Repr

/-- A row of the team_members table. -/
structure TeamMember where
  id : String
  project_id : String
  username : String
  role : String
deriving DecidableEq, Repr

/-- A row of the tasks table.  Timestamps are the raw strings the store
returns; assigned_to is nullable. -/
structure Task where
  id : String
  project_id : String
  title : String
  description : String
  assigned_to : Option String
  status : String
  priority : String
  created_at : Option String
  updated_at : Option String
deriving DecidableEq, Repr

/-- The record store: the three tables the RBAC and analytics engines touch. -/
structure Store where
  projects : List Project
  team_members : List TeamMember
  tasks : List Task
deriving DecidableEq, Repr

/-- db.select_by_id("projects", id). -/
def select_project (db : Store) (project_id : String) : Option Project :=
  db.projects.find? (fun p => p.id == project_id)

/-- db.select_with_filters("team_members", {project_id, username}). -/
def select_members (db : Store) (project_id username : String) : List TeamMember :=
  db.team_members.filter (fun tm => tm.project_id == project_id && tm.username == username)

/-- db.select_where("tasks", "project_id", project_id). -/
def select_tasks (db : Store) (project_id : String) : List Task :=
  db.tasks.filter (fun t => t.project_id == project_id)

/-- get_user_role_in_project of permissions.py, lines 97-124: owner
short-circuit, then first matching team_members row, else None. -/
def get_user_role_in_project (db : Store) (username project_id : String) : Option String :=
  let project := select_project db project_id
  if (match project with
      | some p => p.owner_id == username
      | none => false) then
    some "owner"
  else
    match select_members db project_id username with
    | tm :: _ => some tm.role
    | [] => none

/-- is_project_owner of permissions.py, lines 177-190. -/
def is_project_owner (db : Store) (username project_id : String) : Bool :=
  match select_project db project_id with
  | some p => p.owner_id == username
  | none => false

/-- is_project_member of permissions.py, lines 193-210. -/
def is_project_member (db : Store) (username project_id : String) : Bool :=
  is_project_owner db username project_id
    || (get_user_role_in_project db username project_id).isSome

/-- can_edit_task of permissions.py, lines 213-241.  The role string
returned by the store is compared against the str-enum values by plain
string equality; a falsy (None or empty) role returns false. -/
def can_edit_task (db : Store) (username project_id : String)
    (task_owner : Option String) : Bool :=
  match get_user_role_in_project db username project_id with
  | none => false
  | some role =>
    if role = "" then false
    else if role = "owner" || role = "manager" then true
    else if role = "developer" then task_owner == some username
    else false

/-- can_delete_task of permissions.py, lines 244-263. -/
def can_delete_task (db : Store) (username project_id : String)
    (task_owner : Option String) : Bool :=
  match get_user_role_in_project db username project_id with
  | none => false
  | some role =>
    if role = "" then false
    else role = "owner" || role = "manager"

/-- can_assign_task of permissions.py, lines 266-278. -/
def can_assign_task (db : Store) (username project_id : String) : Bool :=
  check_permission (get_user_role_in_project db username project_id) .ASSIGN_TASK

/-- The typed exceptions of utils/exceptions.py that the embedded routes
raise.  Payload messages are kept only where useful to tell raise sites
apart; InvalidData and TeamMemberNotFound messages are elided. -/
inductive ApiError where
  | projectNotFound (project_id : String)
  | taskNotFound (task_id : String)
  | unauthorizedAccess
  | insufficientPermissions (action : String)
  | invalidData
  | invalidRole (role : String)
  | cannotRemoveOwner
  | teamMemberNotFound
  | databaseError
deriving DecidableEq, Repr

/-- Fuel-driven binary logarithm, structurally recursive so that the
kernel evaluates it on concrete inputs. -/
def natLog2Aux : ℕ → ℕ → ℕ
  | 0, _ => 0
  | fuel + 1, n => if n < 2 then 0 else natLog2Aux fuel (n / 2) + 1

/-- floor(log2 n): the position of the leading bit of n. -/
def natLog2 (n : ℕ) : ℕ :=
  natLog2Aux n n

/-- Round num / den (den positive) to the nearest natural, ties to even:
the IEEE 754 significand rounding. -/
def rheN (num den : ℕ) : ℕ :=
  if 2 * (num % den) < den then num / den
  else if den < 2 * (num % den) then num / den + 1
  else if (num / den) % 2 = 0 then num / den else num / den + 1

/-- floor of log2 (a / b) for positive naturals a and b, computed from
the binary logs of numerator and denominator. -/
def ratLog2floor (a b : ℕ) : ℤ :=
  if b * 2 ^ natLog2 a ≤ a * 2 ^ natLog2 b
  then (natLog2 a : ℤ) - natLog2 b
  else (natLog2 a : ℤ) - natLog2 b - 1

/-- Correct rounding of the positive rational a / b to an IEEE 754
binary64 double (round to nearest, ties to even), as a significand and
exponent pair (m, e): the double denotes m * 2^e, and m = rhe((a/b) /
2^e) lies in [2^52, 2^53] for e = floor(log2 (a/b)) - 52.  Valid
throughout the binary64 normal range, which covers every quantity
arising in this development. -/
def roundPair (a b : ℕ) : ℕ × ℤ :=
  if ratLog2floor a b - 52 ≤ 0
  then (rheN (a * 2 ^ (-(ratLog2floor a b - 52)).toNat) b, ratLog2floor a b - 52)
  else (rheN a (b * 2 ^ (ratLog2floor a b - 52).toNat), ratLog2floor a b - 52)

/-- The exact rational value a significand and exponent pair denotes. -/
def pairVal (p : ℕ × ℤ) : ℚ :=
  (p.1 : ℚ) * (2:ℚ) ^ p.2

/-- Python int() truncation of the non-negative double (m, e). -/
def pairTrunc (p : ℕ × ℤ) : ℕ :=
  if 0 ≤ p.2 then p.1 * 2 ^ p.2.toNat else p.1 / 2 ^ (-p.2).toNat

/-- int((completed / total) * 100) exactly as CPython evaluates it:
completed / total is the correctly rounded binary64 double of the exact
quotient (CPython int / int true division is correctly rounded at every
magnitude), the result is multiplied by the float constant 100.0 with
one more correct rounding, and int() truncates toward zero.  The second
roundPair receives the exact product of the first double with 100,
written as a numerator and denominator pair. -/
def py_progress (completed total : ℕ) : ℕ :=
  if total = 0 then 0
  else if completed = 0 then 0
  else if 0 ≤ (roundPair completed total).2
  then pairTrunc (roundPair
    ((roundPair completed total).1 * 2 ^ (roundPair completed total).2.toNat * 100) 1)
  else pairTrunc (roundPair
    ((roundPair completed total).1 * 100) (2 ^ (-(roundPair completed total).2).toNat))

/-- The per-row effect of the db.update("projects", id, progress) call of
calculate_project_progress. -/
def writeProgress (project_id : String) (progress : Nat) (p : Project) : Project :=
  if p.id == project_id then { p with progress := progress } else p

/-- calculate_project_progress of analytics.py, lines 9-39.  Python does
int((completed / len(tasks)) * 100) in binary64 float arithmetic,
embedded faithfully by py_progress (correctly rounded division and
multiplication, truncation).  The write of the result to
Project.progress goes through db.update, which raises a database error
when the project row is absent; with no tasks the function returns 0
before reaching the update. -/
def calculate_project_progress (db : Store) (project_id : String) :
    Except ApiError (Nat × Store) :=
  let tasks := select_tasks db project_id
  if tasks.length = 0 then
    .ok (0, db)
  else
    let completed := (tasks.filter (fun t => t.status == "completed")).length
    let progress : Nat := py_progress completed tasks.length
    match select_project db project_id with
    | some _ =>
      .ok (progress,
        { db with projects := db.projects.map (writeProgress project_id progress) })
    | none => .error .databaseError

/-- verify_project_access of routes/tasks.py, lines 38-59. -/
def verify_project_access (db : Store) (project_id username : String) :
    Except ApiError Unit :=
  match select_project db project_id with
  | none => .error (.projectNotFound project_id)
  | some _ =>
    if is_project_member db username project_id then .ok ()
    else .error .unauthorizedAccess

/-- The TaskCreate request body of routes/tasks.py create_task. -/
structure TaskCreate where
  title : String
  description : String
  assigned_to : Option String
  status : String
  priority : String
deriving DecidableEq, Repr

/-- Truthiness of an optional string in Python: not None and not empty. -/
def optTruthy (o : Option String) : Bool :=
  match o with
  | some s => s != ""
  | none => false

/-- create_task of routes/tasks.py, lines 62-118.  The store assigns the
new row id, embedded as the new_id parameter; server timestamps are not
modelled (left none).  The assignment log write touches no table of the
Store.  Note: no progress recomputation happens on this path. -/
def create_task (db : Store) (project_id : String) (task_data : TaskCreate)
    (current_user : String) (new_id : String) : Except ApiError (Task × Store) :=
  match verify_project_access db project_id current_user with
  | .error e => .error e
  | .ok _ =>
    let user_role := get_user_role_in_project db current_user project_id
    if ¬ check_permission user_role .CREATE_TASK then
      .error (.insufficientPermissions "create tasks")
    else if optTruthy task_data.assigned_to
        && ¬ is_project_member db (task_data.assigned_to.getD "") project_id then
      .error .invalidData
    else if optTruthy task_data.assigned_to
        && task_data.assigned_to != some current_user
        && ¬ can_assign_task db current_user project_id then
      .error (.insufficientPermissions "assign tasks to others")
    else
      let created_task : Task :=
        { id := new_id, project_id := project_id,
          title := task_data.title, description := task_data.description,
          assigned_to := task_data.assigned_to, status := task_data.status,
          priority := task_data.priority, created_at := none, updated_at := none }
      .ok (created_task, { db with tasks := db.tasks ++ [created_task] })

/-- The per-row effect of db.update("tasks", task_id, status) in
update_task_status. -/
def setTaskStatus (task_id new_status : String) (t : Task) : Task :=
  if t.id == task_id then { t with status := new_status } else t

/-- update_task_status of routes/tasks.py, lines 268-319: status update is
allowed when the role has UPDATE_TASK_STATUS or the caller is the assignee,
then the status is written and project progress recomputed. -/
def update_task_status (db : Store) (project_id task_id new_status username : String) :
    Except ApiError (Task × Store) :=
  match verify_project_access db project_id username with
  | .error e => .error e
  | .ok _ =>
    match db.tasks.find? (fun t => t.id == task_id) with
    | none => .error (.taskNotFound task_id)
    | some task =>
      if task.project_id != project_id then .error (.taskNotFound task_id)
      else
        let user_role := get_user_role_in_project db username project_id
        let task_owner := task.assigned_to
        let has_permission := check_permission user_role .UPDATE_TASK_STATUS
        let is_assigned := task_owner == some username
        if ¬ (has_permission || is_assigned) then
          .error (.insufficientPermissions "update task status")
        else
          let db1 : Store :=
            { db with tasks := db.tasks.map (setTaskStatus task_id new_status) }
          match calculate_project_progress db1 project_id with
          | .error e => .error e
          | .ok (_, db2) => .ok ({ task with status := new_status }, db2)

/-- delete_task of routes/tasks.py, lines 322-357.  Note: no progress
recomputation happens on this path. -/
def delete_task (db : Store) (project_id task_id username : String) :
    Except ApiError Store :=
  match verify_project_access db project_id username with
  | .error e => .error e
  | .ok _ =>
    match db.tasks.find? (fun t => t.id == task_id) with
    | none => .error (.taskNotFound task_id)
    | some task =>
      if task.project_id != project_id then .error (.taskNotFound task_id)
      else
        let task_owner := task.assigned_to
        if ¬ can_delete_task db username project_id task_owner then
          .error (.insufficientPermissions "delete tasks")
        else
          .ok { db with tasks := db.tasks.filter (fun t => t.id != task_id) }

/-- validate_role of routes/roles.py, lines 57-69: the lowercased role
string must be one of the four enum values.  This is the same membership
test as the Role constructor, so it is expressed through roleOfString. -/
def validate_role (role : String) : Except ApiError Unit :=
  if (roleOfString role).isSome then .ok () else .error (.invalidRole role)

/-- Setting the role field of a team_members row when its id matches
(the db.update call of the membership routes). -/
def setMemberRole (member_id new_role : String) (tm : TeamMember) : TeamMember :=
  if tm.id == member_id then { tm with role := new_role } else tm

/-- add_team_member of routes/roles.py, lines 72-128: owner-only; role
validated; adding the owner rejected; an existing (project_id, username)
row gets its role updated in place, otherwise a new row is inserted (the
store-assigned id is the new_id parameter). -/
def add_team_member (db : Store) (project_id : String)
    (member_username member_role : String) (current_user : String)
    (new_id : String) : Except ApiError (TeamMember × Store) :=
  match select_project db project_id with
  | none => .error (.projectNotFound project_id)
  | some project =>
    if ¬ is_project_owner db current_user project_id then
      .error (.insufficientPermissions "add team members (owner only)")
    else
      match validate_role member_role with
      | .error e => .error e
      | .ok _ =>
        if member_username == project.owner_id then .error .invalidData
        else
          match select_members db project_id member_username with
          | existing_member :: _ =>
            .ok ({ existing_member with role := member_role },
              { db with team_members :=
                  db.team_members.map (setMemberRole existing_member.id member_role) })
          | [] =>
            let created_member : TeamMember :=
              { id := new_id, project_id := project_id,
                username := member_username, role := member_role }
            .ok (created_member,
              { db with team_members := db.team_members ++ [created_member] })

/-- update_member_role of routes/roles.py, lines 157-206. -/
def update_member_role (db : Store) (project_id : String)
    (username new_role : String) (current_user : String) :
    Except ApiError (TeamMember × Store) :=
  match select_project db project_id with
  | none => .error (.projectNotFound project_id)
  | some project =>
    if ¬ is_project_owner db current_user project_id then
      .error (.insufficientPermissions "update member roles (owner only)")
    else
      match validate_role new_role with
      | .error e => .error e
      | .ok _ =>
        if username == project.owner_id then .error .invalidData
        else
          match select_members db project_id username with
          | member :: _ =>
            .ok ({ member with role := new_role },
              { db with team_members :=
                  db.team_members.map (setMemberRole member.id new_role) })
          | [] => .error .teamMemberNotFound

/-- remove_team_member of routes/roles.py, lines 209-254. -/
def remove_team_member (db : Store) (project_id username current_user : String) :
    Except ApiError Store :=
  match select_project db project_id with
  | none => .error (.projectNotFound project_id)
  | some project =>
    if ¬ is_project_owner db current_user project_id then
      .error (.insufficientPermissions "remove team members (owner only)")
    else if username == project.owner_id then .error .cannotRemoveOwner
    else
      match select_members db project_id username with
      | member :: _ =>
        .ok { db with team_members := db.team_members.filter (fun tm => tm.id != member.id) }
      | [] => .error .teamMemberNotFound

/-- The bucket count of get_project_timeline of analytics.py, lines
226-234: a task counts toward a bucket when its status is completed, its
updated_at is truthy, and the parsed date is at most the bucket date.
datetime.fromisoformat raising ValueError on an unparseable string is the
error case; dates are integer day numbers produced by the parse
parameter. -/
def completed_by_date (parse : String → Option Int) (tasks : List Task)
    (bucket : Int) : Except String Nat :=
  match tasks with
  | [] => .ok 0
  | t :: rest =>
    if t.status == "completed" && optTruthy t.updated_at then
      match parse (t.updated_at.getD "") with
      | none => .error "Invalid isoformat string"
      | some day =>
        match completed_by_date parse rest bucket with
        | .error e => .error e
        | .ok n => .ok (n + if day ≤ bucket then 1 else 0)
    else
      completed_by_date parse rest bucket

/-- One record of the timeline of get_project_timeline (date kept as the
day number the date string is formatted from). -/
structure TimelinePoint where
  date : Int
  completed : Nat
  total : Nat
  progress : Nat
deriving DecidableEq, Repr

/-- The while loop of get_project_timeline over a list of bucket dates. -/
def build_timeline (parse : String → Option Int) (tasks : List Task)
    (dates : List Int) : Except String (List TimelinePoint) :=
  match dates with
  | [] => .ok []
  | d :: rest =>
    match completed_by_date parse tasks d with
    | .error e => .error e
    | .ok c =>
      match build_timeline parse tasks rest with
      | .error e => .error e
      | .ok tl =>
        .ok ({ date := d, completed := c, total := tasks.length,
               progress := if tasks.length > 0
                 then py_progress c tasks.length
                 else 0 } :: tl)

/-- The bucket dates of get_project_timeline: one day number per calendar
day from now - days to now inclusive. -/
def timeline_dates (now : Int) (days : Nat) : List Int :=
  (List.range (days + 1)).map (fun k => now - (days : Int) + Int.ofNat k)

/-- get_project_timeline of analytics.py, lines 202-249: one bucket per
calendar day from now - days to now inclusive; now is the current day
number, days the look-back parameter (non-negative in the route). -/
def get_project_timeline (parse : String → Option Int) (now : Int)
    (db : Store) (project_id : String) (days : Nat) :
    Except String (List TimelinePoint) :=
  let tasks := select_tasks db project_id
  build_timeline parse tasks (timeline_dates now days)

/-- The average-completion-time sample accumulation of
get_team_productivity, analytics.py lines 166-186: over the completed
tasks of a member, a task contributes (updated - created) days when both
timestamps are truthy, both parse, and the difference is non-negative;
unparseable timestamps are skipped by the except-continue, negative
durations by the guard.  Returns (total_days, valid_tasks). -/
def sample_step (parse : String → Option Int) (acc : Int × Nat) (t : Task) : Int × Nat :=
  if optTruthy t.created_at && optTruthy t.updated_at then
    match parse (t.created_at.getD "") with
    | none => acc
    | some created =>
      match parse (t.updated_at.getD "") with
      | none => acc
      | some updated =>
        if 0 ≤ updated - created then (acc.1 + (updated - created), acc.2 + 1)
        else acc
  else acc

def completion_time_samples (parse : String → Option Int)
    (tasks : List Task) : Int × Nat :=
  (tasks.filter (fun t => t.status == "completed")).foldl (sample_step parse) (0, 0)

/-- The per-task counting condition of a timeline bucket, as a predicate:
status completed, truthy updated_at, and parsed date at most the bucket
date.  Used to state the closed form of get_project_timeline. -/
def completed_by_pred (parse : String → Option Int) (bucket : Int) (t : Task) : Bool :=
  t.status == "completed" && optTruthy t.updated_at &&
    (match parse (t.updated_at.getD "") with
     | some day => decide (day ≤ bucket)
     | none => false)

/-- The total task count of a project (len(tasks) in the source). -/
def project_task_total (db : Store) (project_id : String) : Nat :=
  (select_tasks db project_id).length

/-- The completed task count of a project. -/
def project_completed_count (db : Store) (project_id : String) : Nat :=
  ((select_tasks db project_id).filter (fun t => t.status == "completed")).length

/-- Concrete stores and requests used by the theorems below. -/
def demoProject : Project :=
  { id := "p1", name := "Demo", owner_id := "bob", status := "active", progress := 0 }

def demoMemberAlice : TeamMember :=
  { id := "tm1", project_id := "p1", username := "alice", role := "viewer" }

def demoMemberCarol : TeamMember :=
  { id := "tm2", project_id := "p1", username := "carol", role := "developer" }

def demoMembers : List TeamMember :=
  [demoMemberAlice, demoMemberCarol]

/-- A store whose stored progress (100) agrees with its single completed
task, about to receive a second task. -/
def staleCreateStore : Store :=
  { projects := [{ id := "p1", name := "Demo", owner_id := "bob", status := "active",
                   progress := 100 }],
    team_members := [],
    tasks := [{ id := "t1", project_id := "p1", title := "Done", description := "",
                assigned_to := none, status := "completed", priority := "medium",
                created_at := none, updated_at := none }] }

/-- A store whose stored progress (50) agrees with its two tasks (one
completed, one todo), about to lose the todo task. -/
def staleDeleteStore : Store :=
  { projects := [{ id := "p1", name := "Demo", owner_id := "bob", status := "active",
                   progress := 50 }],
    team_members := [],
    tasks := [{ id := "t1", project_id := "p1", title := "Done", description := "",
                assigned_to := none, status := "completed", priority := "medium",
                created_at := none, updated_at := none },
              { id := "t2", project_id := "p1", title := "Open", description := "",
                assigned_to := none, status := "todo", priority := "medium",
                created_at := none, updated_at := none }] }

def newTodoTask : TaskCreate :=
  { title := "New", description := "", assigned_to := none,
    status := "todo", priority := "medium" }

/-- A completed task finished on day 0. -/
def doneDayTask : Task :=
  { id := "d", project_id := "p1", title := "Done", description := "",
    assigned_to := none, status := "completed", priority := "medium",
    created_at := some "day0", updated_at := some "day0" }

/-- An open task. -/
def openDayTask : Task :=
  { id := "o", project_id := "p1", title := "Open", description := "",
    assigned_to := none, status := "todo", priority := "medium",
    created_at := some "day0", updated_at := some "day0" }

/-- 29 completed of 50 tasks: the ratio where binary64 int((29/50)*100)
is 57 while floor(100 * 29 / 50) is 58. -/
def fiftyStore : Store :=
  { projects := [demoProject],
    team_members := [],
    tasks := List.replicate 29 doneDayTask ++ List.replicate 21 openDayTask }

/-- A day-number parse function for the timeline witnesses. -/
def demoParse : String → Option Int :=
  fun s => if s = "day0" then some 0 else if s = "day1" then some 1 else none

/-- A parse function that accepts nothing. -/
def noParse : String → Option Int :=
  fun _ => none

def timelineStore : Store :=
  { projects := [demoProject],
    team_members := [],
    tasks := [{ id := "t1", project_id := "p1", title := "Done", description := "",
                assigned_to := none, status := "completed", priority := "medium",
                created_at := some "day0", updated_at := some "day0" },
              { id := "t2", project_id := "p1", title := "Open", description := "",
                assigned_to := none, status := "todo", priority := "medium",
                created_at := some "day0", updated_at := some "day0" }] }

/-- A completed task whose updated_at does not parse. -/
def badStampTask : Task :=
  { id := "t1", project_id := "p1", title := "Done", description := "",
    assigned_to := none, status := "completed", priority := "medium",
    created_at := some "garbage", updated_at := some "garbage" }

def badStampStore : Store :=
  { projects := [demoProject], team_members := [], tasks := [badStampTask] }

def demoTasks : List Task :=
  [{ id := "t1", project_id := "p1", title := "Task one", description := "",
     assigned_to := some "alice", status := "todo", priority := "medium",
     created_at := none, updated_at := none }]

def demoStore : Store :=
  { projects := [demoProject], team_members := demoMembers, tasks := demoTasks }

def mixedTasksStore : Store :=
  { projects := [demoProject],
    team_members := demoMembers,
    tasks :=
      [{ id := "t1", project_id := "p1", title := "A", description := "",
         assigned_to := some "alice", status := "completed", priority := "high",
         created_at := none, updated_at := none },
       { id := "t2", project_id := "p1", title := "B", description := "",
         assigned_to := some "carol", status := "completed", priority := "low",
         created_at := none, updated_at := none },
       { id := "t3", project_id := "p1", title := "C", description := "",
         assigned_to := none, status := "in_progress", priority := "medium",
         created_at := none, updated_at := none },
       { id := "t4", project_id := "p1", title := "D", description := "",
         assigned_to := none, status := "todo", priority := "medium",
         created_at := none, updated_at := none }] }

def orphanMemberStore : Store :=
  { projects := [],
    team_members := [{ id := "tm9", project_id := "p9", username := "carol", role := "developer" }],
    tasks := [] }

/-- C1: check_permission is exactly the spec 4.1 role to permission table
on the four enumerated roles, false on None, and false on every role
string outside the enumerated set (fail closed, no error). -/
theorem check_permission_matches_spec_table :
    (∀ r : Role, ∀ p : Permission,
        check_permission (some (roleValue r)) p = spec_table r p)
    ∧ (∀ p : Permission, check_permission none p = false)
    ∧ (∀ s : String, ∀ p : Permission,
        roleOfString s = none → check_permission (some s) p = false) := by
  refine ⟨by decide, by intro p; rfl, ?_⟩
  intro s p h
  simp only [check_permission]
  split
  · rfl
  · rw [h]

/-- C1 witness: the MANAGER row of the table at EDIT_PROJECT, the None
case, and the unknown role string "admin". -/
theorem check_permission_matches_spec_table_witness :
    check_permission (some (roleValue Role.MANAGER)) Permission.EDIT_PROJECT
        = spec_table Role.MANAGER Permission.EDIT_PROJECT
    ∧ check_permission none Permission.VIEW_PROJECT = false
    ∧ (roleOfString "admin" = none
        ∧ check_permission (some "admin") Permission.VIEW_PROJECT = false) :=
  ⟨check_permission_matches_spec_table.1 Role.MANAGER Permission.EDIT_PROJECT,
   check_permission_matches_spec_table.2.1 Permission.VIEW_PROJECT,
   by decide,
   check_permission_matches_spec_table.2.2 "admin" Permission.VIEW_PROJECT (by decide)⟩

/-- C2 counterexample: with the project id absent from the store,
get_user_role_in_project does not fail with ProjectNotFound (its result
type cannot carry an error at all): on this store it even returns the
role of an orphan membership row. -/
theorem resolveRole_missing_project_returns_role :
    select_project orphanMemberStore "p9" = none
    ∧ get_user_role_in_project orphanMemberStore "carol" "p9" = some "developer" := by
  constructor
  · rfl
  · rfl

/-- C2 amended: when the project id is absent, get_user_role_in_project
raises nothing; it skips the owner check and returns the role of the
first matching team_members row, or None when there is no such row.  The
ProjectNotFound raise lives in the route-level precheck helpers, not
here. -/
theorem resolveRole_missing_project_uses_membership
    (db : Store) (username project_id : String)
    (h : select_project db project_id = none) :
    get_user_role_in_project db username project_id =
      (select_members db project_id username).head?.map (fun tm => tm.role) := by
  simp only [get_user_role_in_project, h]
  cases select_members db project_id username <;> simp

/-- C2 amended witness: the orphan-membership store, where the absent
project still yields the membership role. -/
theorem resolveRole_missing_project_uses_membership_witness :
    select_project orphanMemberStore "p9" = none
    ∧ get_user_role_in_project orphanMemberStore "carol" "p9" =
        (select_members orphanMemberStore "p9" "carol").head?.map (fun tm => tm.role) :=
  ⟨by decide,
   resolveRole_missing_project_uses_membership orphanMemberStore "carol" "p9" (by decide)⟩

/-- C3: can_edit_task is true exactly when the resolved role is owner or
manager, or the resolved role is developer and the task assignee string
equals the username; a missing assignee, a viewer role or an unresolved
role give false. -/
theorem can_edit_task_rule (db : Store) (username project_id : String)
    (task_owner : Option String) :
    can_edit_task db username project_id task_owner = true ↔
      (get_user_role_in_project db username project_id = some "owner"
       ∨ get_user_role_in_project db username project_id = some "manager"
       ∨ (get_user_role_in_project db username project_id = some "developer"
          ∧ task_owner = some username)) := by
  simp only [can_edit_task]
  cases hrole : get_user_role_in_project db username project_id with
  | none => simp
  | some role =>
    by_cases h0 : role = ""
    · subst h0; simp
    · by_cases h1 : role = "owner"
      · subst h1; simp
      · by_cases h2 : role = "manager"
        · subst h2; simp
        · by_cases h3 : role = "developer"
          · subst h3
            simp only [h0, if_false, if_neg, decide_eq_true_eq]
            simp
          · simp [h0, h1, h2, h3]

theorem natLog2Aux_eq (fuel n : ℕ) (h : n ≤ fuel) : natLog2Aux fuel n = Nat.log 2 n := by
  induction fuel generalizing n with
  | zero =>
    have hn : n = 0 := Nat.le_zero.mp h
    subst hn
    simp [natLog2Aux, Nat.log_zero_right]
  | succ fuel ih =>
    by_cases h2 : n < 2
    · simp [natLog2Aux, h2, Nat.log_of_lt h2]
    · have hdiv : n / 2 ≤ fuel := by
        have := Nat.div_lt_self (by omega : 0 < n) (by omega : 1 < 2)
        omega
      have hpos : 0 < Nat.log 2 n := Nat.log_pos one_lt_two (by omega)
      have hdb : Nat.log 2 (n / 2) = Nat.log 2 n - 1 := Nat.log_div_base 2 n
      simp only [natLog2Aux, h2, if_false, ih (n / 2) hdiv, hdb]
      omega

theorem natLog2_eq (n : ℕ) : natLog2 n = Nat.log 2 n :=
  natLog2Aux_eq n n le_rfl

theorem rheN_bounds (num den : ℕ) (hd : 0 < den) :
    (num:ℚ)/den - 1/2 ≤ (rheN num den : ℚ)
    ∧ (rheN num den : ℚ) ≤ (num:ℚ)/den + 1/2 := by
  have hdq : (0:ℚ) < den := by exact_mod_cast hd
  have hmod : (den : ℚ) * ((num / den : ℕ) : ℚ) + ((num % den : ℕ) : ℚ) = num := by
    exact_mod_cast Nat.div_add_mod num den
  have hval : (num:ℚ)/den = ((num / den : ℕ) : ℚ) + ((num % den : ℕ) : ℚ)/den := by
    field_simp
    linarith [hmod]
  have hr0 : (0:ℚ) ≤ ((num % den : ℕ) : ℚ) := by positivity
  have hrlt : ((num % den : ℕ) : ℚ) < den := by exact_mod_cast Nat.mod_lt num hd
  unfold rheN
  split
  · next hc =>
    have hc' : 2 * ((num % den : ℕ) : ℚ) < den := by exact_mod_cast hc
    have hfr : ((num % den : ℕ) : ℚ)/den < 1/2 := by
      rw [div_lt_div_iff hdq (by norm_num)]
      linarith
    have hfr0 : (0:ℚ) ≤ ((num % den : ℕ) : ℚ)/den := by positivity
    constructor
    · rw [hval]; linarith
    · rw [hval]; linarith
  · split
    · next hc hc2 =>
      have hc2' : (den : ℚ) < 2 * ((num % den : ℕ) : ℚ) := by exact_mod_cast hc2
      have h1 : (1:ℚ)/2 < ((num % den : ℕ) : ℚ)/den := by
        rw [div_lt_div_iff (by norm_num) hdq]
        linarith
      have h2 : ((num % den : ℕ) : ℚ)/den < 1 := by
        rw [div_lt_one hdq]
        linarith
      push_cast
      constructor
      · rw [hval]; linarith
      · rw [hval]; linarith
    · next hc hc2 =>
      have hceq : (den:ℚ) = 2 * ((num % den : ℕ) : ℚ) := by
        have hx : den ≤ 2 * (num % den) := not_lt.mp hc
        have hy : 2 * (num % den) ≤ den := not_lt.mp hc2
        have heq : den = 2 * (num % den) := le_antisymm hx hy
        exact_mod_cast heq
      have hhalf : ((num % den : ℕ) : ℚ)/den = 1/2 := by
        rw [div_eq_div_iff hdq.ne' (by norm_num : (2:ℚ) ≠ 0)]
        linarith
      split
      · rw [hval, hhalf]
        constructor <;> linarith
      · push_cast
        rw [hval, hhalf]
        constructor <;> linarith

theorem ratLog2floor_le {a b : ℕ} (ha : 0 < a) (hb : 0 < b) :
    (2:ℚ) ^ ratLog2floor a b ≤ (a:ℚ)/b := by
  have hla : (2:ℕ) ^ natLog2 a ≤ a := by
    rw [natLog2_eq]; exact Nat.pow_log_le_self 2 ha.ne'
  have hlb : b < (2:ℕ) ^ (natLog2 b + 1) := by
    rw [natLog2_eq]; exact Nat.lt_pow_succ_log_self one_lt_two b
  have hbq : (0:ℚ) < b := by exact_mod_cast hb
  have h2 : ((2:ℚ)) ≠ 0 := by norm_num
  unfold ratLog2floor
  split
  · next hcond =>
    rw [zpow_sub₀ h2, zpow_natCast, zpow_natCast, div_le_div_iff (by positivity) hbq,
      mul_comm ((2:ℚ) ^ natLog2 a) (b:ℚ)]
    exact_mod_cast hcond
  · next hcond =>
    have hre : (natLog2 a : ℤ) - natLog2 b - 1
        = (natLog2 a : ℤ) - ((natLog2 b + 1 : ℕ) : ℤ) := by push_cast; ring
    rw [hre, zpow_sub₀ h2, zpow_natCast, zpow_natCast, div_le_div_iff (by positivity) hbq]
    have ha' : ((2:ℚ)) ^ natLog2 a ≤ (a:ℚ) := by exact_mod_cast hla
    have hb' : (b:ℚ) ≤ (2:ℚ) ^ (natLog2 b + 1) := by exact_mod_cast hlb.le
    exact mul_le_mul ha' hb' hbq.le (by positivity)

theorem rhe_scaled_bounds (snum sden : ℕ) (e : ℤ) (hsden : 0 < sden) (q : ℚ)
    (hq : ((snum:ℚ)/sden) * (2:ℚ)^e = q)
    (hee : (2:ℚ)^e * (2:ℚ)^(52:ℤ) ≤ q) :
    q - q * ((2:ℚ)^(53:ℕ))⁻¹ ≤ (rheN snum sden : ℚ) * (2:ℚ)^e
    ∧ (rheN snum sden : ℚ) * (2:ℚ)^e ≤ q + q * ((2:ℚ)^(53:ℕ))⁻¹ := by
  have h2e : (0:ℚ) < (2:ℚ)^e := by positivity
  obtain ⟨hb1, hb2⟩ := rheN_bounds snum sden hsden
  have k1 := mul_le_mul_of_nonneg_right hb1 h2e.le
  have k2 := mul_le_mul_of_nonneg_right hb2 h2e.le
  have herr : (2:ℚ)^e / 2 ≤ q * ((2:ℚ)^(53:ℕ))⁻¹ := by
    have h53 : ((2:ℚ)^(53:ℕ))⁻¹ = (2:ℚ)^(-(53:ℤ)) := by
      rw [← zpow_natCast (2:ℚ) 53, ← zpow_neg]
      norm_num
    have hpw : (2:ℚ)^(52:ℤ) * (2:ℚ)^(-(53:ℤ)) = 1/2 := by
      rw [← zpow_add₀ (by norm_num : (2:ℚ) ≠ 0),
        show (52:ℤ) + -53 = -1 by decide, zpow_neg, zpow_one]
      norm_num
    have hstep : (2:ℚ)^e * (2:ℚ)^(52:ℤ) * (2:ℚ)^(-(53:ℤ)) = (2:ℚ)^e / 2 := by
      rw [mul_assoc, hpw]
      ring
    rw [h53, ← hstep]
    exact mul_le_mul_of_nonneg_right hee (by positivity)
  have hlow : ((snum:ℚ)/sden - 1/2) * (2:ℚ)^e = q - (2:ℚ)^e / 2 := by
    rw [sub_mul, hq]
    ring
  have hhigh : ((snum:ℚ)/sden + 1/2) * (2:ℚ)^e = q + (2:ℚ)^e / 2 := by
    rw [add_mul, hq]
    ring
  constructor
  · rw [hlow] at k1
    linarith
  · rw [hhigh] at k2
    have h2epos : (0:ℚ) ≤ (2:ℚ)^e / 2 := by positivity
    linarith

theorem pairVal_roundPair_bounds {a b : ℕ} (ha : 0 < a) (hb : 0 < b) :
    (a:ℚ)/b - ((a:ℚ)/b) * ((2:ℚ)^(53:ℕ))⁻¹ ≤ pairVal (roundPair a b)
    ∧ pairVal (roundPair a b) ≤ (a:ℚ)/b + ((a:ℚ)/b) * ((2:ℚ)^(53:ℕ))⁻¹ := by
  have hlow : (2:ℚ) ^ ratLog2floor a b ≤ (a:ℚ)/b := ratLog2floor_le ha hb
  have hbq : (0:ℚ) < b := by exact_mod_cast hb
  have h2 : ((2:ℚ)) ≠ 0 := by norm_num
  have hee : (2:ℚ)^(ratLog2floor a b - 52) * (2:ℚ)^(52:ℤ) ≤ (a:ℚ)/b := by
    rw [← zpow_add₀ h2]
    simpa using hlow
  unfold roundPair pairVal
  split
  · next hcase =>
    have hjz : (((-(ratLog2floor a b - 52)).toNat : ℕ) : ℤ) = -(ratLog2floor a b - 52) :=
      Int.toNat_of_nonneg (by omega)
    refine rhe_scaled_bounds _ b (ratLog2floor a b - 52) hb ((a:ℚ)/b) ?_ hee
    push_cast
    rw [← zpow_natCast (2:ℚ) ((-(ratLog2floor a b - 52)).toNat), hjz,
      div_mul_eq_mul_div, mul_assoc, ← zpow_add₀ h2]
    simp
  · next hcase =>
    have hjz : (((ratLog2floor a b - 52).toNat : ℕ) : ℤ) = ratLog2floor a b - 52 :=
      Int.toNat_of_nonneg (by omega)
    have hbj : (0:ℕ) < b * 2 ^ (ratLog2floor a b - 52).toNat := by positivity
    refine rhe_scaled_bounds a _ (ratLog2floor a b - 52) hbj ((a:ℚ)/b) ?_ hee
    push_cast
    rw [← zpow_natCast (2:ℚ) ((ratLog2floor a b - 52).toNat), hjz, div_mul_eq_mul_div,
      div_eq_div_iff (by positivity : (0:ℚ) < _).ne' hbq.ne']
    ring

theorem pairVal_nonneg (p : ℕ × ℤ) : 0 ≤ pairVal p := by
  unfold pairVal
  positivity

theorem roundPair_fst_pos {a b : ℕ} (ha : 0 < a) (hb : 0 < b) :
    0 < (roundPair a b).1 := by
  by_contra h0
  have hm : (roundPair a b).1 = 0 := by omega
  have hv : pairVal (roundPair a b) = 0 := by
    unfold pairVal
    rw [hm]
    simp
  have hbd := (pairVal_roundPair_bounds ha hb).1
  rw [hv] at hbd
  have hq : (0:ℚ) < (a:ℚ)/b := by positivity
  have hk : ((2:ℚ)^(53:ℕ))⁻¹ < 1 := by norm_num
  nlinarith

theorem pairTrunc_eq_floor (p : ℕ × ℤ) : pairTrunc p = ⌊pairVal p⌋₊ := by
  obtain ⟨m, e⟩ := p
  unfold pairTrunc pairVal
  split
  · next he =>
    have hint : ((m:ℚ)) * (2:ℚ)^e = ((m * 2 ^ e.toNat : ℕ) : ℚ) := by
      push_cast
      rw [← zpow_natCast (2:ℚ) e.toNat, Int.toNat_of_nonneg he]
    rw [hint, Nat.floor_natCast]
  · next he =>
    have hj : (((-e).toNat : ℕ) : ℤ) = -e := Int.toNat_of_nonneg (by omega)
    have hint : ((m:ℚ)) * (2:ℚ)^e = ((m : ℕ) : ℚ) / ((2 ^ (-e).toNat : ℕ) : ℚ) := by
      push_cast
      rw [← zpow_natCast (2:ℚ) (-e).toNat, hj, div_eq_mul_inv, ← zpow_neg, neg_neg]
    rw [hint, Nat.floor_div_nat, Nat.floor_natCast]

theorem pairTrunc_roundPair_lt {n d : ℕ} (hn : 0 < n) (hd : 0 < d) (B : ℚ) (N : ℕ)
    (hB : (n:ℚ)/d ≤ B) (hBpos : 0 ≤ B)
    (hN : B + B * ((2:ℚ)^(53:ℕ))⁻¹ < N) :
    pairTrunc (roundPair n d) < N := by
  have hbd := (pairVal_roundPair_bounds hn hd).2
  have h0 : 0 ≤ pairVal (roundPair n d) := pairVal_nonneg _
  rw [pairTrunc_eq_floor, Nat.floor_lt h0]
  have hk : (0:ℚ) ≤ ((2:ℚ)^(53:ℕ))⁻¹ := by positivity
  have hq0 : (0:ℚ) ≤ (n:ℚ)/d := by positivity
  nlinarith

theorem py_progress_le_100 (c t : ℕ) (hct : c ≤ t) : py_progress c t ≤ 100 := by
  by_cases ht : t = 0
  · simp [py_progress, ht]
  · by_cases hc : c = 0
    · simp [py_progress, ht, hc]
    · have ht0 : 0 < t := Nat.pos_of_ne_zero ht
      have hc0 : 0 < c := Nat.pos_of_ne_zero hc
      have htq : (0:ℚ) < t := by exact_mod_cast ht0
      have hq1 : (c:ℚ)/t ≤ 1 := by
        rw [div_le_one htq]
        exact_mod_cast hct
      have hmpos : 0 < (roundPair c t).1 := roundPair_fst_pos hc0 ht0
      set k : ℚ := ((2:ℚ)^(53:ℕ))⁻¹ with hkdef
      have hk0 : (0:ℚ) ≤ k := by positivity
      have hv1 := (pairVal_roundPair_bounds hc0 ht0).2
      have hq0 : (0:ℚ) ≤ (c:ℚ)/t := by positivity
      have hv1le : pairVal (roundPair c t) ≤ 1 + k := by
        have : ((c:ℚ)/t) * k ≤ 1 * k := mul_le_mul_of_nonneg_right hq1 hk0
        calc pairVal (roundPair c t) ≤ (c:ℚ)/t + ((c:ℚ)/t) * k := hv1
          _ ≤ 1 + 1 * k := by linarith
          _ = 1 + k := by ring
      unfold pairVal at hv1le
      set m : ℕ := (roundPair c t).1 with hmdef
      set e : ℤ := (roundPair c t).2 with hedef
      have hm : 0 < m := hmpos
      have hBN : 100 * (1+k) + (100 * (1+k)) * k < ((101:ℕ):ℚ) := by
        rw [hkdef]
        norm_num
      unfold py_progress
      rw [if_neg ht, if_neg hc, ← hmdef, ← hedef]
      by_cases he : 0 ≤ e
      · rw [if_pos he]
        have hfr : ((m * 2 ^ e.toNat * 100 : ℕ) : ℚ) / ((1:ℕ) : ℚ) ≤ 100 * (1+k) := by
          have hcast : ((m * 2 ^ e.toNat * 100 : ℕ) : ℚ) = ((m:ℚ) * (2:ℚ)^e) * 100 := by
            push_cast
            rw [← zpow_natCast (2:ℚ) e.toNat, Int.toNat_of_nonneg he]
            try ring
          rw [hcast]
          simp only [Nat.cast_one, div_one]
          nlinarith [mul_nonneg (Nat.cast_nonneg m) (le_of_lt (by positivity : (0:ℚ) < (2:ℚ)^e))]
        have hlt := pairTrunc_roundPair_lt (by positivity) one_pos (100 * (1+k)) 101 hfr
          (by positivity) hBN
        omega
      · rw [if_neg he]
        have hj : (((-e).toNat : ℕ) : ℤ) = -e := Int.toNat_of_nonneg (by omega)
        have hfr : ((m * 100 : ℕ) : ℚ) / ((2 ^ (-e).toNat : ℕ) : ℚ) ≤ 100 * (1+k) := by
          have hcast : ((m * 100 : ℕ) : ℚ) / ((2 ^ (-e).toNat : ℕ) : ℚ)
              = ((m:ℚ) * (2:ℚ)^e) * 100 := by
            push_cast
            rw [← zpow_natCast (2:ℚ) (-e).toNat, hj, div_eq_mul_inv, ← zpow_neg, neg_neg]
            try ring
          rw [hcast]
          nlinarith [mul_nonneg (Nat.cast_nonneg m) (le_of_lt (by positivity : (0:ℚ) < (2:ℚ)^e))]
        have hlt := pairTrunc_roundPair_lt (by positivity) (by positivity) (100 * (1+k)) 101
          hfr (by positivity) hBN
        omega

theorem roundPair_self (t : ℕ) (ht : 0 < t) : roundPair t t = (2 ^ 52, -52) := by
  have h1 : ratLog2floor t t = 0 := by
    unfold ratLog2floor
    rw [if_pos le_rfl]
    exact sub_self _
  have h2 : rheN (t * 2 ^ 52) t = 2 ^ 52 := by
    unfold rheN
    rw [Nat.mul_mod_right, Nat.mul_div_cancel_left _ ht]
    simp [ht]
  unfold roundPair
  rw [h1]
  rw [if_pos (by decide : (0:ℤ) - 52 ≤ 0)]
  rw [show ((-((0:ℤ) - 52)).toNat) = 52 by decide, h2]
  rw [show ((0:ℤ) - 52) = -52 by decide]

theorem py_progress_all (t : ℕ) (ht : 0 < t) : py_progress t t = 100 := by
  unfold py_progress
  rw [if_neg (by omega : ¬ t = 0), if_neg (by omega : ¬ t = 0), roundPair_self t ht]
  decide

/-- Mapping a function that preserves a predicate commutes with filtering
by that predicate. -/
theorem filter_map_comm {α : Type} (g : α → α) (P : α → Bool)
    (h : ∀ x, P (g x) = P x) (l : List α) :
    (l.map g).filter P = (l.filter P).map g := by
  induction l with
  | nil => rfl
  | cons a l ih =>
    cases hPa : P a with
    | true => simp [List.filter_cons, h a, hPa, ih]
    | false => simp [List.filter_cons, h a, hPa, ih]

/-- Mapping an idempotent function twice is mapping it once. -/
theorem map_map_idem {α : Type} (g : α → α) (h : ∀ x, g (g x) = g x) (l : List α) :
    (l.map g).map g = l.map g := by
  induction l with
  | nil => rfl
  | cons a l ih => simp [h a, ih]

/-- find? after mapping a function that preserves the predicate. -/
theorem find?_map_comm {α : Type} (g : α → α) (P : α → Bool)
    (h : ∀ x, P (g x) = P x) (l : List α) :
    (l.map g).find? P = (l.find? P).map g := by
  induction l with
  | nil => rfl
  | cons a l ih =>
    cases hPa : P a with
    | true => simp [List.find?_cons, h a, hPa]
    | false => simp [List.find?_cons, h a, hPa, ih]

theorem writeProgress_id (project_id : String) (progress : Nat) (p : Project) :
    (writeProgress project_id progress p).id = p.id := by
  simp only [writeProgress]
  split <;> rfl

theorem writeProgress_idem (project_id : String) (progress : Nat) (p : Project) :
    writeProgress project_id progress (writeProgress project_id progress p)
      = writeProgress project_id progress p := by
  simp only [writeProgress]
  split
  · next h => simp [h]
  · next h => simp [h]

/-- C5 counterexample: with 29 of 50 tasks completed the program
computes int((29 / 50) * 100) in binary64 floats, which is 57, while
the floor formula of the claim gives 58. -/
theorem calculate_project_progress_float_truncation :
    (calculate_project_progress fiftyStore "p1").map Prod.fst = Except.ok 57
    ∧ project_completed_count fiftyStore "p1" * 100 / project_task_total fiftyStore "p1"
        = 58 := by
  constructor
  · rfl
  · rfl

/-- C5 (amended): calculate_project_progress returns the binary64 float
truncation int((completed / total) * 100) (0 when the project has no
tasks, with no store write in that case), the value is at most 100, it
is 100 when every task is completed, and recomputing on the
written-back store returns the same value and store (idempotence). -/
theorem calculate_project_progress_props (db : Store) (project_id : String) :
    (project_task_total db project_id = 0 →
      calculate_project_progress db project_id = .ok (0, db))
    ∧ ((select_project db project_id).isSome = true →
        ∃ db2,
          calculate_project_progress db project_id =
            .ok (py_progress (project_completed_count db project_id)
                  (project_task_total db project_id), db2)
          ∧ py_progress (project_completed_count db project_id)
              (project_task_total db project_id) ≤ 100
          ∧ (0 < project_task_total db project_id →
              project_completed_count db project_id = project_task_total db project_id →
              py_progress (project_completed_count db project_id)
                (project_task_total db project_id) = 100)
          ∧ calculate_project_progress db2 project_id =
              .ok (py_progress (project_completed_count db project_id)
                    (project_task_total db project_id), db2)) := by
  have hle : project_completed_count db project_id ≤ project_task_total db project_id :=
    List.length_filter_le _ _
  constructor
  · intro h0
    simp only [project_task_total] at h0
    simp [calculate_project_progress, h0]
  · intro hproj
    obtain ⟨proj, hp⟩ := Option.isSome_iff_exists.mp hproj
    by_cases h0 : (select_tasks db project_id).length = 0
    · have htz : project_task_total db project_id = 0 := h0
      have hpz : py_progress (project_completed_count db project_id)
          (project_task_total db project_id) = 0 := by
        rw [htz]
        simp [py_progress]
      refine ⟨db, ?_, ?_, ?_, ?_⟩
      · rw [hpz]
        simp [calculate_project_progress, h0]
      · rw [hpz]
        omega
      · intro hpos
        rw [htz] at hpos
        exact absurd hpos (by omega)
      · rw [hpz]
        simp [calculate_project_progress, h0]
    · have hpos : 0 < project_task_total db project_id := by
        simp only [project_task_total]
        omega
      have hval1 :
          py_progress ((select_tasks db project_id).filter
              (fun t => t.status == "completed")).length (select_tasks db project_id).length
          = py_progress (project_completed_count db project_id)
              (project_task_total db project_id) := rfl
      refine ⟨{ db with projects := db.projects.map (writeProgress project_id (py_progress (project_completed_count db project_id) (project_task_total db project_id))) }, ?_, ?_, ?_, ?_⟩
      · simp only [calculate_project_progress, h0, if_false, hp, hval1, writeProgress]
      · exact py_progress_le_100 _ _ hle
      · intro _ hall
        rw [hall]
        exact py_progress_all _ hpos
      · have hfind : (db.projects.map (writeProgress project_id
            (py_progress (project_completed_count db project_id)
              (project_task_total db project_id)))).find?
              (fun p => p.id == project_id)
            = some (writeProgress project_id (py_progress (project_completed_count db project_id)
                (project_task_total db project_id)) proj) := by
          rw [find?_map_comm _ _ (fun p => by rw [writeProgress_id]) db.projects]
          have hp' : db.projects.find? (fun p => p.id == project_id) = some proj := hp
          rw [hp']
          rfl
        have hmm := map_map_idem
          (writeProgress project_id (py_progress (project_completed_count db project_id)
            (project_task_total db project_id)))
          (writeProgress_idem project_id _) db.projects
        have hval2 :
            py_progress ((db.tasks.filter (fun t => t.project_id == project_id)).filter
                (fun t => t.status == "completed")).length
              (db.tasks.filter (fun t => t.project_id == project_id)).length
            = py_progress (project_completed_count db project_id)
                (project_task_total db project_id) := rfl
        have h0' : ¬ (db.tasks.filter (fun t => t.project_id == project_id)).length = 0 := h0
        simp only [calculate_project_progress, select_tasks, select_project, h0', if_false, hfind,
          hval2, hmm]

/-- C5 witness: a project with 4 tasks of which 2 are completed has
progress 50 (2 / 4 is exactly representable, so float and exact
arithmetic agree here). -/
theorem calculate_project_progress_props_witness :
    (calculate_project_progress mixedTasksStore "p1").map Prod.fst = Except.ok 50 := by
  obtain ⟨db2, h1, h2, h3, h4⟩ :=
    (calculate_project_progress_props mixedTasksStore "p1").2 (by decide)
  rw [h1]
  rfl

/-- C4: for a member of an existing project and a task of that project,
update_task_status succeeds exactly when the resolved role holds
UPDATE_TASK_STATUS or the caller is the current assignee, and otherwise
fails with InsufficientPermissions. -/
theorem update_task_status_or_rule
    (db : Store) (project_id task_id new_status username : String) (task : Task)
    (hproj : (select_project db project_id).isSome = true)
    (hmem : is_project_member db username project_id = true)
    (htask : db.tasks.find? (fun t => t.id == task_id) = some task)
    (hpt : task.project_id = project_id) :
    ((update_task_status db project_id task_id new_status username).isOk
      = (check_permission (get_user_role_in_project db username project_id)
            Permission.UPDATE_TASK_STATUS
          || task.assigned_to == some username))
    ∧ ((check_permission (get_user_role_in_project db username project_id)
            Permission.UPDATE_TASK_STATUS
          || task.assigned_to == some username) = false →
        update_task_status db project_id task_id new_status username
          = .error (.insufficientPermissions "update task status")) := by
  obtain ⟨proj, hp⟩ := Option.isSome_iff_exists.mp hproj
  have hv : verify_project_access db project_id username = .ok () := by
    simp [verify_project_access, hp, hmem]
  have hbne : (task.project_id != project_id) = false := by simp [hpt]
  cases hcond : (check_permission (get_user_role_in_project db username project_id)
      Permission.UPDATE_TASK_STATUS || task.assigned_to == some username) with
  | false =>
    constructor
    · simp [update_task_status, hv, htask, hbne, hcond, Except.isOk, Except.toBool]
    · intro _
      simp [update_task_status, hv, htask, hbne, hcond]
  | true =>
    have htmem : task ∈ db.tasks := List.mem_of_find?_eq_some htask
    have hmem1 : setTaskStatus task_id new_status task
        ∈ db.tasks.map (setTaskStatus task_id new_status) :=
      List.mem_map_of_mem _ htmem
    have hpid1 : (setTaskStatus task_id new_status task).project_id = project_id := by
      simp only [setTaskStatus]
      split <;> exact hpt
    have hsel : setTaskStatus task_id new_status task
        ∈ (db.tasks.map (setTaskStatus task_id new_status)).filter
            (fun t => t.project_id == project_id) :=
      List.mem_filter.mpr ⟨hmem1, by simp [hpid1]⟩
    have hlen : ¬ ((db.tasks.map (setTaskStatus task_id new_status)).filter
        (fun t => t.project_id == project_id)).length = 0 := by
      intro hl
      rw [List.length_eq_zero] at hl
      rw [hl] at hsel
      exact absurd hsel (List.not_mem_nil _)
    have hp' : db.projects.find? (fun p => p.id == project_id) = some proj := hp
    have hcalc : ∃ pr st,
        calculate_project_progress
          { db with tasks := db.tasks.map (setTaskStatus task_id new_status) } project_id
          = .ok (pr, st) := by
      simp only [calculate_project_progress, select_tasks, select_project, hlen, if_false, hp']
      exact ⟨_, _, rfl⟩
    obtain ⟨pr, st, hc⟩ := hcalc
    constructor
    · simp [update_task_status, hv, htask, hbne, hcond, hc, Except.isOk, Except.toBool]
    · intro hfalse
      exact absurd hfalse (by simp)

/-- C4 witness: alice has role viewer (no UPDATE_TASK_STATUS) but is the
assignee of task t1, so her status update succeeds. -/
theorem update_task_status_or_rule_witness :
    (update_task_status demoStore "p1" "t1" "completed" "alice").isOk = true := by
  have h := (update_task_status_or_rule demoStore "p1" "t1" "completed" "alice"
      (demoTasks.get ⟨0, by decide⟩) (by decide) (by decide) (by decide) (by decide)).1
  rw [h]
  decide

/-- C3 witness: in the demo store carol is a developer; she can edit a
task assigned to her, and a task with no assignee is not editable. -/
theorem can_edit_task_rule_witness :
    can_edit_task demoStore "carol" "p1" (some "carol") = true
    ∧ can_edit_task demoStore "carol" "p1" none = false :=
  ⟨(can_edit_task_rule demoStore "carol" "p1" (some "carol")).mpr
      (Or.inr (Or.inr ⟨by decide, rfl⟩)),
   by
     have h := can_edit_task_rule demoStore "carol" "p1" none
     revert h
     decide⟩

/-- C6: create_task and delete_task do not recompute project progress.
Starting from stores whose stored progress agrees with their tasks, after
an authorized task creation the stored progress is still 100 while the
completion ratio has become 50, and after an authorized task deletion the
stored progress is still 50 while the ratio has become 100. -/
theorem create_and_delete_task_skip_progress_recompute :
    ((create_task staleCreateStore "p1" newTodoTask "bob" "t2").map (fun r =>
        ((select_project r.2 "p1").map Project.progress,
         (calculate_project_progress r.2 "p1").map Prod.fst))
      = Except.ok (some 100, Except.ok 50))
    ∧ ((delete_task staleDeleteStore "p1" "t2" "bob").map (fun db2 =>
        ((select_project db2 "p1").map Project.progress,
         (calculate_project_progress db2 "p1").map Prod.fst))
      = Except.ok (some 50, Except.ok 100)) := by
  constructor
  · with_unfolding_all rfl
  · with_unfolding_all rfl

/-- C8: with an authorized caller and a valid role string, adding the
project owner as a member fails with InvalidData, updating the owner's
role fails with InvalidData, and removing the owner fails with
CannotRemoveOwner; an error result carries no store, so the membership
table is untouched. -/
theorem owner_membership_immutable
    (db : Store) (project_id new_role current_user new_id : String) (proj : Project)
    (hp : select_project db project_id = some proj)
    (hown : is_project_owner db current_user project_id = true)
    (hr : (roleOfString new_role).isSome = true) :
    add_team_member db project_id proj.owner_id new_role current_user new_id
        = .error .invalidData
    ∧ update_member_role db project_id proj.owner_id new_role current_user
        = .error .invalidData
    ∧ remove_team_member db project_id proj.owner_id current_user
        = .error .cannotRemoveOwner := by
  have hval : validate_role new_role = .ok () := by simp [validate_role, hr]
  refine ⟨?_, ?_, ?_⟩
  · simp [add_team_member, hp, hown, hval]
  · simp [update_member_role, hp, hown, hval]
  · simp [remove_team_member, hp, hown]

theorem setMemberRole_keeps_key (member_id new_role : String) (tm : TeamMember) :
    (setMemberRole member_id new_role tm).project_id = tm.project_id
    ∧ (setMemberRole member_id new_role tm).username = tm.username
    ∧ (setMemberRole member_id new_role tm).id = tm.id := by
  simp only [setMemberRole]
  split <;> exact ⟨rfl, rfl, rfl⟩

theorem setMemberRole_idem (member_id new_role : String) (tm : TeamMember) :
    setMemberRole member_id new_role (setMemberRole member_id new_role tm)
      = setMemberRole member_id new_role tm := by
  simp only [setMemberRole]
  split
  · next h => simp [h]
  · next h => simp [h]

/-- C9: adding a member who already has a (project_id, username) row
updates that row's role in place: no row is inserted, the table length is
unchanged, and repeating the same add returns the same member and leaves
the store exactly as after the first add (idempotent upsert). -/
theorem add_team_member_upsert
    (db : Store) (project_id member_username new_role current_user new_id new_id2 : String)
    (proj : Project) (tm : TeamMember) (rest : List TeamMember)
    (hp : select_project db project_id = some proj)
    (hown : is_project_owner db current_user project_id = true)
    (hr : (roleOfString new_role).isSome = true)
    (hne : (member_username == proj.owner_id) = false)
    (hex : select_members db project_id member_username = tm :: rest) :
    add_team_member db project_id member_username new_role current_user new_id
        = .ok ({ tm with role := new_role },
            { db with team_members := db.team_members.map (setMemberRole tm.id new_role) })
    ∧ (db.team_members.map (setMemberRole tm.id new_role)).length = db.team_members.length
    ∧ add_team_member
          { db with team_members := db.team_members.map (setMemberRole tm.id new_role) }
          project_id member_username new_role current_user new_id2
        = .ok ({ tm with role := new_role },
            { db with team_members := db.team_members.map (setMemberRole tm.id new_role) }) := by
  have hval : validate_role new_role = .ok () := by simp [validate_role, hr]
  have hPg : ∀ x : TeamMember,
      ((setMemberRole tm.id new_role x).project_id == project_id
        && (setMemberRole tm.id new_role x).username == member_username)
      = (x.project_id == project_id && x.username == member_username) := by
    intro x
    rw [(setMemberRole_keeps_key tm.id new_role x).1, (setMemberRole_keeps_key tm.id new_role x).2.1]
  have hex' : db.team_members.filter
      (fun x => x.project_id == project_id && x.username == member_username) = tm :: rest := hex
  have hsel2 : select_members
      { db with team_members := db.team_members.map (setMemberRole tm.id new_role) }
      project_id member_username
      = ({ tm with role := new_role }) :: rest.map (setMemberRole tm.id new_role) := by
    simp only [select_members]
    rw [filter_map_comm (setMemberRole tm.id new_role) _ hPg, hex']
    simp [setMemberRole]
  have hmm := map_map_idem (setMemberRole tm.id new_role) (setMemberRole_idem tm.id new_role)
    db.team_members
  refine ⟨?_, by simp, ?_⟩
  · simp [add_team_member, hp, hown, hval, hne, hex]
  · have hp2 : select_project
        { db with team_members := db.team_members.map (setMemberRole tm.id new_role) }
        project_id = some proj := hp
    have hown2 : is_project_owner
        { db with team_members := db.team_members.map (setMemberRole tm.id new_role) }
        current_user project_id = true := hown
    simp [add_team_member, hp2, hown2, hval, hne, hsel2, setMemberRole, hmm]

/-- C9 witness: carol already has a developer row in p1; bob re-adds her
as manager twice; both adds return the updated row and the same store. -/
theorem add_team_member_upsert_witness :
    add_team_member demoStore "p1" "carol" "manager" "bob" "tmX"
        = .ok ({ demoMemberCarol with role := "manager" },
            { demoStore with team_members :=
                demoStore.team_members.map (setMemberRole demoMemberCarol.id "manager") })
    ∧ (demoStore.team_members.map (setMemberRole demoMemberCarol.id "manager")).length
        = demoStore.team_members.length
    ∧ add_team_member
          { demoStore with team_members :=
              demoStore.team_members.map (setMemberRole demoMemberCarol.id "manager") }
          "p1" "carol" "manager" "bob" "tmY"
        = .ok ({ demoMemberCarol with role := "manager" },
            { demoStore with team_members :=
                demoStore.team_members.map (setMemberRole demoMemberCarol.id "manager") }) :=
  add_team_member_upsert demoStore "p1" "carol" "manager" "bob" "tmX" "tmY"
    demoProject demoMemberCarol [] (by decide) (by decide) (by decide) (by decide) (by decide)

/-- C8 witness: bob owns p1; adding, re-roling or removing bob as a
member is rejected. -/
theorem owner_membership_immutable_witness :
    add_team_member demoStore "p1" "bob" "manager" "bob" "tm9"
        = .error .invalidData
    ∧ update_member_role demoStore "p1" "bob" "manager" "bob"
        = .error .invalidData
    ∧ remove_team_member demoStore "p1" "bob" "bob"
        = .error .cannotRemoveOwner :=
  owner_membership_immutable demoStore "p1" "manager" "bob" "tm9" demoProject
    (by decide) (by decide) (by decide)

theorem completed_by_date_ok (parse : String → Option Int) (bucket : Int)
    (tasks : List Task)
    (h : ∀ t ∈ tasks, (t.status == "completed" && optTruthy t.updated_at) = true →
        (parse (t.updated_at.getD "")).isSome = true) :
    completed_by_date parse tasks bucket
      = .ok (tasks.countP (completed_by_pred parse bucket)) := by
  induction tasks with
  | nil => rfl
  | cons t rest ih =>
    have hrest := fun x hx => h x (List.mem_cons_of_mem _ hx)
    cases hguard : (t.status == "completed" && optTruthy t.updated_at) with
    | false =>
      simp [completed_by_date, hguard, List.countP_cons, completed_by_pred, ih hrest]
    | true =>
      obtain ⟨day, hday⟩ :=
        Option.isSome_iff_exists.mp (h t (List.mem_cons_self t rest) hguard)
      simp [completed_by_date, hguard, hday, List.countP_cons, completed_by_pred, ih hrest]

theorem build_timeline_ok (parse : String → Option Int) (tasks : List Task)
    (h : ∀ t ∈ tasks, (t.status == "completed" && optTruthy t.updated_at) = true →
        (parse (t.updated_at.getD "")).isSome = true)
    (dates : List Int) :
    build_timeline parse tasks dates
      = .ok (dates.map (fun d =>
          { date := d,
            completed := tasks.countP (completed_by_pred parse d),
            total := tasks.length,
            progress := if tasks.length > 0
              then py_progress (tasks.countP (completed_by_pred parse d)) tasks.length
              else 0 })) := by
  induction dates with
  | nil => rfl
  | cons d ds ih =>
    simp only [build_timeline, completed_by_date_ok parse d tasks h, ih, List.map_cons]

/-- C7 counterexample: a single bucket over the 29-of-50 store: the
program emits progress 57 (binary64 int((29/50)*100)) where the claim
requires the floor value 58. -/
theorem get_project_timeline_float_truncation :
    get_project_timeline demoParse 0 fiftyStore "p1" 0
      = .ok [{ date := 0, completed := 29, total := 50, progress := 57 }]
    ∧ (select_tasks fiftyStore "p1").countP (completed_by_pred demoParse 0) * 100
        / (select_tasks fiftyStore "p1").length = 58 := by
  constructor
  · rfl
  · rfl

/-- C7 (amended): when every counted timestamp parses,
get_project_timeline returns one record per calendar day from now - days
to now inclusive, whose completed field counts the tasks completed by
that date, whose total is the current task count, and whose progress is
the binary64 float truncation int(100 * completed / total) with 0 for an
empty project. -/
theorem get_project_timeline_shape (parse : String → Option Int) (now : Int)
    (db : Store) (project_id : String) (days : Nat)
    (h : ∀ t ∈ select_tasks db project_id,
        (t.status == "completed" && optTruthy t.updated_at) = true →
        (parse (t.updated_at.getD "")).isSome = true) :
    get_project_timeline parse now db project_id days
      = .ok ((timeline_dates now days).map
          (fun d =>
            { date := d,
              completed := (select_tasks db project_id).countP (completed_by_pred parse d),
              total := (select_tasks db project_id).length,
              progress := if (select_tasks db project_id).length > 0
                then py_progress ((select_tasks db project_id).countP (completed_by_pred parse d))
                  (select_tasks db project_id).length
                else 0 }))
    ∧ (timeline_dates now days).length = days + 1 := by
  refine ⟨?_, by rw [timeline_dates, List.length_map, List.length_range]⟩
  exact build_timeline_ok parse (select_tasks db project_id) h _

/-- C7 witness: a two-task store with one task completed on day 0,
queried over two buckets. -/
theorem get_project_timeline_shape_witness :
    (get_project_timeline demoParse 1 timelineStore "p1" 1).isOk = true := by
  rw [(get_project_timeline_shape demoParse 1 timelineStore "p1" 1 (by decide)).1]
  rfl

theorem completed_by_date_error (parse : String → Option Int) (bucket : Int)
    (tasks : List Task) (t : Task) (hmem : t ∈ tasks)
    (hguard : (t.status == "completed" && optTruthy t.updated_at) = true)
    (hparse : parse (t.updated_at.getD "") = none) :
    completed_by_date parse tasks bucket = .error "Invalid isoformat string" := by
  induction tasks with
  | nil => exact absurd hmem (List.not_mem_nil t)
  | cons a rest ih =>
    rcases List.mem_cons.mp hmem with rfl | hmem2
    · simp [completed_by_date, hguard, hparse]
    · cases hga : (a.status == "completed" && optTruthy a.updated_at) with
      | false => simp [completed_by_date, hga, ih hmem2]
      | true =>
        cases hpa : parse (a.updated_at.getD "") with
        | none => simp [completed_by_date, hga, hpa]
        | some day => simp [completed_by_date, hga, hpa, ih hmem2]

/-- C10: get_project_timeline has no parse guard: a single completed task
whose truthy updated_at does not parse makes the whole call fail instead
of returning a series, while the productivity sample loop of
get_team_productivity silently skips the very same task. -/
theorem get_project_timeline_parse_failure
    (parse : String → Option Int) (now : Int) (db : Store) (project_id : String)
    (days : Nat) (t : Task) (s : String)
    (hmem : t ∈ db.tasks) (hpid : t.project_id = project_id)
    (hst : t.status = "completed") (hupd : t.updated_at = some s) (hs : s ≠ "")
    (hparse : parse s = none) :
    get_project_timeline parse now db project_id days = .error "Invalid isoformat string"
    ∧ ∀ others : List Task,
        completion_time_samples parse (t :: others) = completion_time_samples parse others := by
  have hguard : (t.status == "completed" && optTruthy t.updated_at) = true := by
    simp [hst, hupd, optTruthy, hs]
  have hget : t.updated_at.getD "" = s := by rw [hupd]; rfl
  have hparse2 : parse (t.updated_at.getD "") = none := by rw [hget]; exact hparse
  have hsel : t ∈ select_tasks db project_id :=
    List.mem_filter.mpr ⟨hmem, by simp [hpid]⟩
  constructor
  · cases hdates : timeline_dates now days with
    | nil =>
      have hlen := congrArg List.length hdates
      rw [timeline_dates, List.length_map, List.length_range] at hlen
      exact absurd hlen (Nat.succ_ne_zero days)
    | cons d ds =>
      simp only [get_project_timeline, hdates, build_timeline,
        completed_by_date_error parse d (select_tasks db project_id) t hsel hguard hparse2]
  · intro others
    have hskip : ∀ acc : Int × Nat, sample_step parse acc t = acc := by
      intro acc
      cases hca : t.created_at with
      | none => simp [sample_step, optTruthy, hca]
      | some c =>
        by_cases hc0 : c = ""
        · simp [sample_step, optTruthy, hca, hc0]
        · cases hpc : parse c with
          | none => simp [sample_step, optTruthy, hca, hc0, hupd, hs, hpc]
          | some created =>
            simp [sample_step, optTruthy, hca, hc0, hupd, hs, hpc, hparse]
    simp only [completion_time_samples, List.filter_cons]
    rw [show (t.status == "completed") = true by simp [hst]]
    simp only [if_true, List.foldl_cons, hskip]

/-- C10 witness: a store whose only task is completed with an
unparseable timestamp, under a parse function that accepts nothing. -/
theorem get_project_timeline_parse_failure_witness :
    get_project_timeline noParse 0 badStampStore "p1" 3 = .error "Invalid isoformat string"
    ∧ completion_time_samples noParse [badStampTask] = completion_time_samples noParse [] := by
  have h := get_project_timeline_parse_failure noParse 0 badStampStore "p1" 3
    badStampTask "garbage" (by decide) (by decide) (by decide) (by decide) (by decide) rfl
  exact ⟨h.1, h.2 []⟩

end PMApp
